import Mathlib

/-!
Verification of the sales-dashboard analytics core.

This file shallowly embeds the analytic functions of the repository
(`core/kpi.py`, `core/scenario.py`, `core/pareto.py`, `core/validation.py`,
`core/forecasting.py`) as executable Lean definitions and proves the
spec's testable properties about them.

Modelling conventions:
* pandas float columns are modelled as `ℚ` (exact arithmetic; the spec's
  "within floating-point tolerance" clauses become exact equalities);
* a Python float division by zero (ZeroDivisionError for plain floats,
  NaN for numpy floats) is modelled by an `Option` result: `none` marks
  the anomalous outcome, `some` the well-defined one;
* a month period label ("YYYY-MM" string / month-start timestamp) is
  modelled as the pair `(year, month)`; lexicographic order on the pair
  agrees with both the label's string order and the timestamp order;
* a dataset is a `List` of typed rows mirroring the 8-column schema.
-/

namespace SalesDashboard

/-- A calendar date, as carried by the `order_date` column. -/
structure Date where
  year : Nat
  month : Nat
  day : Nat
  deriving DecidableEq, Repr

/-- One sales record, one row of the 8-column dataset schema
(`order_id, order_date, product_name, category, region, quantity,
unit_price, revenue`). -/
structure SalesRow where
  order_id : Nat
  order_date : Date
  product_name : String
  category : String
  region : String
  quantity : Int
  unit_price : ℚ
  revenue : ℚ
  deriving DecidableEq, Repr

/-! ## core/scenario.py -/

/-- The dict returned by `simulate_scenario`. -/
structure ScenarioResult where
  simulated_revenue : ℚ
  absolute_change : ℚ
  percentage_change : ℚ
  deriving DecidableEq, Repr

/-- `simulate_scenario` from `core/scenario.py`.

The code computes `delta_pct = (delta / baseline_revenue) * 100`
unconditionally; when `baseline_revenue` is zero that division is `0/0`
(a `ZeroDivisionError` for a plain Python float, `NaN` for a numpy
float), so no well-defined result dict is produced.  That anomalous
outcome is modelled as `none`. -/
def simulate_scenario (baseline_revenue price_change_pct volume_change_pct
    discount_pct : ℚ) : Option ScenarioResult :=
  let price_factor := 1 + price_change_pct / 100
  let volume_factor := 1 + volume_change_pct / 100
  let discount_factor := 1 - discount_pct / 100
  let simulated_revenue :=
    baseline_revenue * price_factor * volume_factor * discount_factor
  let delta := simulated_revenue - baseline_revenue
  if baseline_revenue = 0 then none
  else some
    { simulated_revenue := simulated_revenue
      absolute_change := delta
      percentage_change := delta / baseline_revenue * 100 }

/-- The dict returned by `baseline_metrics`.  `avg_price` of an empty
dataset is NaN in pandas; the model returns `0` there (ℚ division by
zero), which no claim depends on. -/
structure BaselineMetrics where
  total_revenue : ℚ
  total_quantity : Int
  avg_price : ℚ
  deriving DecidableEq, Repr

/-- `baseline_metrics` from `core/scenario.py`. -/
def baseline_metrics (df : List SalesRow) : BaselineMetrics :=
  { total_revenue := (df.map (·.revenue)).sum
    total_quantity := (df.map (·.quantity)).sum
    avg_price := (df.map (·.unit_price)).sum / (df.length : ℚ) }

/-! ## core/validation.py : schema check -/

/-- `REQUIRED_COLUMNS` from `core/validation.py`. -/
def REQUIRED_COLUMNS : List String :=
  ["order_id", "order_date", "product_name", "category", "region",
   "quantity", "unit_price", "revenue"]

/-- `validate_schema` from `core/validation.py`:
`set(REQUIRED_COLUMNS) - set(df.columns)` materialised as a list.  The
Python result's element order is unspecified (set semantics); the model
fixes the representative order of `REQUIRED_COLUMNS`, and the theorem
about it speaks only of membership. -/
def validate_schema (columns : List String) : List String :=
  REQUIRED_COLUMNS.filter (fun c => !(columns.contains c))

/-! ## core/kpi.py : interpretation of a decomposition row -/

/-- `interpret_revenue_change` from `core/kpi.py`, as a function of the
two fields (`orders_effect`, `aov_effect`) the code reads from its row
argument.  The two phrases are accumulated in a list and joined with
`" & "`, exactly as the code does. -/
def interpret_revenue_change (orders_effect aov_effect : ℚ) : String :=
  let messages :=
    [if orders_effect > 0 then "Increase driven by higher order volume"
     else "Decrease driven by lower order volume",
     if aov_effect > 0 then "Higher average order value helped"
     else "Lower average order value impacted revenue"]
  String.intercalate " & " messages

/-! ## core/kpi.py : monthly aggregation and decomposition -/

/-- The grouping key of `order_date.dt.to_period("M")`: the `(year, month)`
pair behind the "YYYY-MM" label. -/
def monthKey (d : Date) : Nat × Nat := (d.year, d.month)

/-- Chronological order of month keys; it agrees with the lexicographic
string order of the "YYYY-MM" labels pandas sorts group keys by. -/
def keyLE (a b : Nat × Nat) : Prop := a.1 < b.1 ∨ (a.1 = b.1 ∧ a.2 ≤ b.2)

instance : DecidableRel keyLE := fun a b => by unfold keyLE; exact inferInstance

/-- One row of the Monthly Aggregate table returned by `monthly_kpis`. -/
structure MonthlyRow where
  order_month : Nat × Nat
  revenue : ℚ
  orders : ℚ
  aov : ℚ
  deriving DecidableEq, Repr

/-- `monthly_kpis` from `core/kpi.py`: group by calendar month of
`order_date`, sum revenue, count distinct `order_id`, and compute
`aov = revenue / orders`; pandas emits the groups sorted ascending by
the month key. -/
def monthly_kpis (df : List SalesRow) : List MonthlyRow :=
  let keys := List.insertionSort keyLE ((df.map (fun r => monthKey r.order_date)).dedup)
  keys.map (fun k =>
    let grp := df.filter (fun r => decide (monthKey r.order_date = k))
    let revenue := (grp.map (·.revenue)).sum
    let orders : ℚ := ((grp.map (·.order_id)).dedup.length : ℚ)
    { order_month := k, revenue := revenue, orders := orders,
      aov := revenue / orders })

/-- One row of the table returned by `revenue_decomposition`. -/
structure DecompRow where
  order_month : Nat × Nat
  revenue : ℚ
  revenue_change : ℚ
  orders_effect : ℚ
  aov_effect : ℚ
  deriving DecidableEq, Repr

/-- `revenue_decomposition` from `core/kpi.py`: `shift(1)` pairs each row
with its chronological predecessor (pc.1 below), `dropna()` removes the
first row — the only one whose shifted `prev_*` columns are NaN — and
the remaining rows carry the period-over-period change and its
volume/price attribution. -/
def revenue_decomposition (monthly : List MonthlyRow) : List DecompRow :=
  (monthly.zip monthly.tail).map (fun pc =>
    { order_month := pc.2.order_month
      revenue := pc.2.revenue
      revenue_change := pc.2.revenue - pc.1.revenue
      orders_effect := (pc.2.orders - pc.1.orders) * pc.1.aov
      aov_effect := (pc.2.aov - pc.1.aov) * pc.2.orders })

/-- Splitting a mapped sum by a Boolean predicate on the rows. -/
theorem sum_map_filter_split {α : Type} (p : α → Bool) (f : α → ℚ)
    (df : List α) :
    ((df.filter p).map f).sum + ((df.filter (fun r => !(p r))).map f).sum
      = (df.map f).sum := by
  induction df with
  | nil => simp
  | cons r rest ih =>
    cases h : p r <;> simp [List.filter_cons, h] <;> linarith

/-- Grouping conserves sums: summing a column groupwise over a duplicate-free
list of keys that covers every row gives the whole-column sum. -/
theorem sum_over_groups {α κ : Type} [DecidableEq κ] (key : α → κ) (f : α → ℚ) :
    ∀ (keys : List κ) (df : List α), keys.Nodup →
      (∀ r ∈ df, key r ∈ keys) →
      (keys.map (fun k => ((df.filter (fun r => decide (key r = k))).map f).sum)).sum
        = (df.map f).sum := by
  intro keys
  induction keys with
  | nil =>
    intro df _ hall
    have hdf : df = [] :=
      List.eq_nil_iff_forall_not_mem.mpr (fun r hr => by simpa using hall r hr)
    simp [hdf]
  | cons k ks ih =>
    intro df hnd hall
    have hknotin : k ∉ ks := (List.nodup_cons.mp hnd).1
    have hksnd : ks.Nodup := (List.nodup_cons.mp hnd).2
    rw [List.map_cons, List.sum_cons]
    have hmap : (ks.map (fun q => ((df.filter (fun r => decide (key r = q))).map f).sum))
        = (ks.map (fun q =>
            (((df.filter (fun r => !(decide (key r = k)))).filter
              (fun r => decide (key r = q))).map f).sum)) := by
      apply List.map_congr_left
      intro q hq
      have hfil : df.filter (fun r => decide (key r = q))
          = (df.filter (fun r => !(decide (key r = k)))).filter
              (fun r => decide (key r = q)) := by
        rw [List.filter_filter]
        apply List.filter_congr
        intro r _
        rcases Decidable.eq_or_ne (key r) q with h | h
        · have hqk : q ≠ k := fun hh => hknotin (hh ▸ hq)
          simp [h, hqk]
        · simp [h]
      rw [hfil]
    rw [hmap, ih (df.filter (fun r => !(decide (key r = k)))) hksnd ?_]
    · exact sum_map_filter_split (fun r => decide (key r = k)) f df
    · intro r hr
      rw [List.mem_filter] at hr
      rcases List.mem_cons.mp (hall r hr.1) with h | h
      · exfalso
        have := hr.2
        simp [h] at this
      · exact h

/-- Claim C3: monthly grouping conserves total revenue — for every
non-empty dataset, the `revenue` column of `monthly_kpis` sums to the
`revenue` column of the input. -/
theorem monthly_kpis_conserves_revenue (df : List SalesRow) (hne : df ≠ []) :
    ((monthly_kpis df).map (·.revenue)).sum = (df.map (·.revenue)).sum := by
  unfold monthly_kpis
  rw [List.map_map]
  have hperm : (List.insertionSort keyLE
        ((df.map (fun r => monthKey r.order_date)).dedup)).Perm
      ((df.map (fun r => monthKey r.order_date)).dedup) :=
    List.perm_insertionSort _ _
  rw [List.Perm.sum_eq (hperm.map _)]
  exact sum_over_groups (fun r => monthKey r.order_date) (·.revenue) _ df
    (List.nodup_dedup _)
    (fun r hr => List.mem_dedup.mpr
      (List.mem_map_of_mem (fun r => monthKey r.order_date) hr))

/-- A concrete two-row dataset for the C3 witness. -/
def c3df : List SalesRow :=
  [{ order_id := 1, order_date := ⟨2024, 1, 5⟩, product_name := "A",
     category := "X", region := "N", quantity := 2, unit_price := 3,
     revenue := 6 },
   { order_id := 2, order_date := ⟨2024, 2, 7⟩, product_name := "B",
     category := "X", region := "N", quantity := 1, unit_price := 4,
     revenue := 4 }]

/-- Witness for claim C3 on a concrete non-empty two-month dataset. -/
theorem monthly_kpis_conserves_revenue_witness :
    ((monthly_kpis c3df).map (·.revenue)).sum = (c3df.map (·.revenue)).sum :=
  monthly_kpis_conserves_revenue c3df (by simp [c3df])

/-- Claim C1: on any monthly KPI sequence — rows whose `aov` field equals
`revenue / orders` with a nonzero order count — every decomposition row
is exactly additive: `revenue_change = orders_effect + aov_effect`. -/
theorem revenue_decomposition_additive (monthly : List MonthlyRow)
    (h : ∀ m ∈ monthly, m.orders ≠ 0 ∧ m.aov = m.revenue / m.orders)
    (row : DecompRow) (hrow : row ∈ revenue_decomposition monthly) :
    row.revenue_change = row.orders_effect + row.aov_effect := by
  unfold revenue_decomposition at hrow
  rw [List.mem_map] at hrow
  obtain ⟨pc, hmem, rfl⟩ := hrow
  obtain ⟨prev, cur⟩ := pc
  obtain ⟨hp, hc⟩ := List.of_mem_zip hmem
  obtain ⟨hpo, hpa⟩ := h prev hp
  obtain ⟨hco, hca⟩ := h cur (List.mem_of_mem_tail hc)
  show cur.revenue - prev.revenue
      = (cur.orders - prev.orders) * prev.aov + (cur.aov - prev.aov) * cur.orders
  rw [hpa, hca]
  field_simp
  ring

/-- A concrete two-month KPI table for the C1 witness. -/
def c1monthly : List MonthlyRow :=
  [{ order_month := (2024, 1), revenue := 10, orders := 2, aov := 5 },
   { order_month := (2024, 2), revenue := 9, orders := 3, aov := 3 }]

/-- The single decomposition row of `c1monthly`. -/
def c1row : DecompRow :=
  { order_month := (2024, 2), revenue := 9, revenue_change := -1,
    orders_effect := 5, aov_effect := -6 }

/-- Witness for claim C1 on the concrete table `c1monthly`: its one
decomposition row satisfies `-1 = 5 + (-6)`. -/
theorem revenue_decomposition_additive_witness :
    c1row.revenue_change = c1row.orders_effect + c1row.aov_effect :=
  revenue_decomposition_additive c1monthly
    (by
      intro m hm
      rcases List.mem_cons.mp hm with rfl | hm
      · norm_num [c1monthly]
      rcases List.mem_cons.mp hm with rfl | hm
      · norm_num
      · simp at hm)
    c1row
    (by
      unfold revenue_decomposition c1monthly c1row
      norm_num)

/-! ## core/pareto.py -/

/-- The sort order of `sort_values("revenue", ascending=False)` on the
grouped `(label, revenue)` pairs: larger revenue first.  Tie order is
unspecified by the spec. -/
def revDesc (a b : String × ℚ) : Prop := b.2 ≤ a.2

instance : DecidableRel revDesc := fun a b => by unfold revDesc; exact inferInstance

/-- One row of the table returned by `pareto_products` /
`pareto_categories`. -/
structure ParetoRow where
  name : String
  revenue : ℚ
  revenue_share : ℚ
  cumulative_share : ℚ
  pareto_flag : Bool
  deriving DecidableEq, Repr

/-- Running sums, as computed by pandas `cumsum`. -/
def cumsum : List ℚ → List ℚ
  | [] => []
  | x :: xs => x :: (cumsum xs).map (fun y => x + y)

/-- The `groupby(label).agg(revenue=("revenue", "sum"))` step shared by
both pareto functions: one `(label, summed revenue)` pair per distinct
label. -/
def groupRevenue (key : SalesRow → String) (df : List SalesRow) :
    List (String × ℚ) :=
  ((df.map key).dedup).map (fun k =>
    (k, ((df.filter (fun r => decide (key r = k))).map (·.revenue)).sum))

/-- The grouped pairs sorted descending by revenue. -/
def paretoSorted (key : SalesRow → String) (df : List SalesRow) :
    List (String × ℚ) :=
  List.insertionSort revDesc (groupRevenue key df)

/-- `total_revenue = product_rev["revenue"].sum()`, taken over the
sorted grouped table exactly as the code does. -/
def paretoTotal (key : SalesRow → String) (df : List SalesRow) : ℚ :=
  ((paretoSorted key df).map (·.2)).sum

/-- The `revenue_share` column. -/
def paretoShares (key : SalesRow → String) (df : List SalesRow) : List ℚ :=
  (paretoSorted key df).map (fun g => g.2 / paretoTotal key df)

/-- The common body of `pareto_products` and `pareto_categories` from
`core/pareto.py`: group, sort descending, attach share, cumulative
share and the threshold flag. -/
def pareto_by (key : SalesRow → String) (df : List SalesRow)
    (threshold : ℚ) : List ParetoRow :=
  ((paretoSorted key df).zip (cumsum (paretoShares key df))).map (fun gc =>
    { name := gc.1.1, revenue := gc.1.2,
      revenue_share := gc.1.2 / paretoTotal key df,
      cumulative_share := gc.2,
      pareto_flag := decide (gc.2 ≤ threshold) })

/-- `pareto_products` from `core/pareto.py` (threshold defaults to 0.8
at the Python call sites). -/
def pareto_products (df : List SalesRow) (threshold : ℚ) : List ParetoRow :=
  pareto_by (fun r => r.product_name) df threshold

/-- `pareto_categories` from `core/pareto.py`. -/
def pareto_categories (df : List SalesRow) (threshold : ℚ) : List ParetoRow :=
  pareto_by (fun r => r.category) df threshold

theorem length_cumsum (l : List ℚ) : (cumsum l).length = l.length := by
  induction l with
  | nil => rfl
  | cons x xs ih => simp [cumsum, ih]

theorem getLast?_cons_of_ne_nil {α : Type} (x : α) (t : List α) (h : t ≠ []) :
    (x :: t).getLast? = t.getLast? := by
  cases t with
  | nil => exact absurd rfl h
  | cons b l => exact List.getLast?_cons_cons

/-- The last running sum is the total. -/
theorem cumsum_getLast? (l : List ℚ) (h : l ≠ []) :
    (cumsum l).getLast? = some l.sum := by
  induction l with
  | nil => exact absurd rfl h
  | cons x xs ih =>
    cases xs with
    | nil => simp [cumsum]
    | cons y ys =>
      have h1 : (cumsum (y :: ys)).map (fun z => x + z) ≠ [] := by
        simp [cumsum]
      rw [show cumsum (x :: y :: ys)
            = x :: (cumsum (y :: ys)).map (fun z => x + z) from rfl]
      rw [getLast?_cons_of_ne_nil _ _ h1, List.getLast?_map,
        ih (by simp)]
      simp

/-- Entry `i` of the running sums is the sum of the first `i + 1`
entries. -/
theorem cumsum_get (l : List ℚ) :
    ∀ (i : Nat) (hi : i < l.length),
      (cumsum l).get ⟨i, by rw [length_cumsum]; exact hi⟩
        = (l.take (i + 1)).sum := by
  induction l with
  | nil => intro i hi; simp at hi
  | cons x xs ih =>
    intro i hi
    cases i with
    | zero => simp [cumsum]
    | succ j =>
      have hj : j < xs.length := by simpa using hi
      have hx : (cumsum (x :: xs)).get
            ⟨j + 1, by rw [length_cumsum]; exact hi⟩
          = x + (cumsum xs).get ⟨j, by rw [length_cumsum]; exact hj⟩ := by
        simp [cumsum, List.get_eq_getElem]
      rw [hx, ih j hj]
      simp

/-- Running sums of nonnegative values are non-decreasing. -/
theorem cumsum_chain (l : List ℚ) (hpos : ∀ x ∈ l, 0 ≤ x) :
    List.Chain' (· ≤ ·) (cumsum l) := by
  rw [List.chain'_iff_get]
  intro i hi
  rw [length_cumsum] at hi
  have hi1 : i < l.length := lt_of_lt_of_le hi (Nat.sub_le _ _)
  have hi2 : i + 1 < l.length := by omega
  rw [cumsum_get l i hi1, cumsum_get l (i + 1) hi2,
    List.sum_take_succ l (i + 1) hi2]
  have := hpos (l.get ⟨i + 1, hi2⟩) (List.get_mem l (i + 1) hi2)
  simp only [List.get_eq_getElem] at this ⊢
  linarith

/-- Dividing each entry by a constant divides the sum. -/
theorem sum_map_div (l : List ℚ) (t : ℚ) :
    (l.map (fun x => x / t)).sum = l.sum / t := by
  induction l with
  | nil => simp
  | cons x xs ih => simp [ih, add_div]

/-- The grand total used for shares is the dataset's total revenue. -/
theorem paretoTotal_eq (key : SalesRow → String) (df : List SalesRow) :
    paretoTotal key df = (df.map (·.revenue)).sum := by
  unfold paretoTotal paretoSorted
  rw [List.Perm.sum_eq ((List.perm_insertionSort revDesc _).map _)]
  unfold groupRevenue
  rw [List.map_map]
  exact sum_over_groups key (·.revenue) _ df (List.nodup_dedup _)
    (fun r hr => List.mem_dedup.mpr (List.mem_map_of_mem key hr))

/-- Each grouped revenue is a sum of row revenues, so it is nonnegative
whenever every row revenue is. -/
theorem groupRevenue_nonneg (key : SalesRow → String) (df : List SalesRow)
    (hpos : ∀ r ∈ df, 0 ≤ r.revenue) :
    ∀ g ∈ groupRevenue key df, 0 ≤ g.2 := by
  intro g hg
  unfold groupRevenue at hg
  rw [List.mem_map] at hg
  obtain ⟨k, _, rfl⟩ := hg
  apply List.sum_nonneg
  intro x hx
  rw [List.mem_map] at hx
  obtain ⟨r, hr, rfl⟩ := hx
  exact hpos r (List.mem_filter.mp hr).1

/-- The cumulative-share column of `pareto_by`. -/
theorem pareto_by_cumshares (key : SalesRow → String) (df : List SalesRow)
    (threshold : ℚ) :
    (pareto_by key df threshold).map (·.cumulative_share)
      = cumsum (paretoShares key df) := by
  unfold pareto_by
  rw [List.map_map]
  exact List.map_snd_zip _ _
    (le_of_eq (by rw [length_cumsum]; unfold paretoShares; rw [List.length_map]))

/-- Shared argument for both pareto groupings: on a dataset with
nonnegative revenues and nonzero total, the cumulative-share column
ends at exactly 1 and is non-decreasing. -/
theorem pareto_by_cumulative (key : SalesRow → String) (df : List SalesRow)
    (threshold : ℚ) (hne : df ≠ []) (hpos : ∀ r ∈ df, 0 ≤ r.revenue)
    (htot : (df.map (·.revenue)).sum ≠ 0) :
    ((pareto_by key df threshold).map (·.cumulative_share)).getLast? = some 1
    ∧ List.Chain' (· ≤ ·)
        ((pareto_by key df threshold).map (·.cumulative_share)) := by
  have htot2 : paretoTotal key df ≠ 0 := by rw [paretoTotal_eq]; exact htot
  have htotpos : 0 < paretoTotal key df := by
    rcases lt_or_eq_of_le
        (List.sum_nonneg (fun x hx => by
          rw [List.mem_map] at hx
          obtain ⟨g, hg, rfl⟩ := hx
          exact groupRevenue_nonneg key df hpos g
            ((List.perm_insertionSort revDesc _).mem_iff.mp hg))) with h | h
    · exact h
    · exact absurd h.symm htot2
  have hsharespos : ∀ x ∈ paretoShares key df, 0 ≤ x := by
    intro x hx
    unfold paretoShares at hx
    rw [List.mem_map] at hx
    obtain ⟨g, hg, rfl⟩ := hx
    exact div_nonneg
      (groupRevenue_nonneg key df hpos g
        ((List.perm_insertionSort revDesc _).mem_iff.mp hg))
      (le_of_lt htotpos)
  have hsharesne : paretoShares key df ≠ [] := by
    obtain ⟨r0, hr0⟩ : ∃ r, r ∈ df := by
      cases df with
      | nil => exact absurd rfl hne
      | cons a l => exact ⟨a, List.mem_cons_self a l⟩
    have hk : key r0 ∈ (df.map key).dedup :=
      List.mem_dedup.mpr (List.mem_map_of_mem key hr0)
    have : groupRevenue key df ≠ [] := by
      unfold groupRevenue
      intro hcon
      rw [List.map_eq_nil_iff] at hcon
      rw [hcon] at hk
      exact absurd hk (List.not_mem_nil _)
    unfold paretoShares paretoSorted
    intro hcon
    rw [List.map_eq_nil_iff] at hcon
    exact this (List.Perm.eq_nil ((List.perm_insertionSort revDesc _).symm.trans
      (hcon ▸ List.Perm.refl _)))
  have hsum : (paretoShares key df).sum = 1 := by
    unfold paretoShares
    rw [show (paretoSorted key df).map (fun g => g.2 / paretoTotal key df)
          = ((paretoSorted key df).map (·.2)).map
              (fun x => x / paretoTotal key df) by
        rw [List.map_map]
        simp [Function.comp]]
    rw [sum_map_div]
    exact div_self htot2
  rw [pareto_by_cumshares]
  exact ⟨by rw [cumsum_getLast? _ hsharesne, hsum], cumsum_chain _ hsharespos⟩

/-- A helper row constructor for concrete pareto datasets. -/
def mkRow (id : Nat) (ym : Nat × Nat) (p c : String) (rev : ℚ) : SalesRow :=
  { order_id := id, order_date := ⟨ym.1, ym.2, 1⟩, product_name := p,
    category := c, region := "N", quantity := 1, unit_price := rev,
    revenue := rev }

/-- A dataset with one negative-revenue product. -/
def c4df : List SalesRow :=
  [mkRow 1 (2024, 1) "A" "X" 2, mkRow 2 (2024, 1) "B" "X" (-1)]

/-- Claim C4 as stated is false: on the (schema-legal) dataset `c4df`
with revenues `2` and `-1`, the cumulative shares of `pareto_products`
are `[2, 1]`, which is not non-decreasing. -/
theorem pareto_cumulative_counterexample :
    ¬ List.Chain' (· ≤ ·)
        ((pareto_products c4df (8/10)).map (·.cumulative_share)) := by
  have : (pareto_products c4df (8/10)).map (·.cumulative_share) = [2, 1] := by
    rw [pareto_products, pareto_by_cumshares]
    norm_num +decide [paretoShares, paretoTotal, paretoSorted, groupRevenue,
      c4df, mkRow, List.insertionSort, List.orderedInsert, revDesc,
      List.dedup, List.pwFilter, cumsum]
  rw [this]
  norm_num [List.chain'_cons]

/-- Claim C4 (amended): for every non-empty dataset all of whose
revenues are nonnegative with nonzero total — the degenerate cases the
spec itself sets aside — both `pareto_products` and `pareto_categories`
produce a cumulative-share column that ends at exactly 1 and is
non-decreasing. -/
theorem pareto_cumulative_spec (df : List SalesRow) (threshold : ℚ)
    (hne : df ≠ []) (hpos : ∀ r ∈ df, 0 ≤ r.revenue)
    (htot : (df.map (·.revenue)).sum ≠ 0) :
    (((pareto_products df threshold).map (·.cumulative_share)).getLast? = some 1
      ∧ List.Chain' (· ≤ ·)
          ((pareto_products df threshold).map (·.cumulative_share)))
    ∧ (((pareto_categories df threshold).map (·.cumulative_share)).getLast? = some 1
      ∧ List.Chain' (· ≤ ·)
          ((pareto_categories df threshold).map (·.cumulative_share))) :=
  ⟨pareto_by_cumulative _ df threshold hne hpos htot,
   pareto_by_cumulative _ df threshold hne hpos htot⟩

/-- A concrete all-positive dataset for the C4 witness. -/
def c4wdf : List SalesRow :=
  [mkRow 1 (2024, 1) "A" "X" 3, mkRow 2 (2024, 1) "B" "Y" 1]

/-- Witness for the amended claim C4 on the concrete dataset `c4wdf`. -/
theorem pareto_cumulative_spec_witness :
    (((pareto_products c4wdf (8/10)).map (·.cumulative_share)).getLast? = some 1
      ∧ List.Chain' (· ≤ ·)
          ((pareto_products c4wdf (8/10)).map (·.cumulative_share)))
    ∧ (((pareto_categories c4wdf (8/10)).map (·.cumulative_share)).getLast? = some 1
      ∧ List.Chain' (· ≤ ·)
          ((pareto_categories c4wdf (8/10)).map (·.cumulative_share))) :=
  pareto_cumulative_spec c4wdf (8/10) (by simp [c4wdf])
    (by
      intro r hr
      rcases List.mem_cons.mp hr with rfl | hr
      · norm_num [mkRow]
      rcases List.mem_cons.mp hr with rfl | hr
      · norm_num [mkRow]
      · simp at hr)
    (by norm_num [c4wdf, mkRow])

/-! ## core/validation.py : business rules and outliers -/

/-- The three row-subsets returned by `validate_business_rules`. -/
structure BusinessRuleIssues where
  invalid_quantity : List SalesRow
  invalid_price : List SalesRow
  revenue_mismatch : List SalesRow
  deriving DecidableEq, Repr

/-- `validate_business_rules` from `core/validation.py`: three
independent row filters. -/
def validate_business_rules (df : List SalesRow) : BusinessRuleIssues :=
  { invalid_quantity := df.filter (fun r => decide (r.quantity ≤ 0))
    invalid_price := df.filter (fun r => decide (r.unit_price ≤ 0))
    revenue_mismatch := df.filter (fun r =>
      decide (1 < |r.revenue - (r.quantity : ℚ) * r.unit_price|)) }

/-- Linear interpolation at position `h` of a sorted value list, the
kernel of pandas `Series.quantile` with its default linear method:
`s[⌊h⌋] + (h − ⌊h⌋)·(s[⌊h⌋+1] − s[⌊h⌋])`.  When `⌊h⌋ + 1` is past the
end the second read falls back to the base value, which only happens
when the interpolation weight is zero for the in-range positions used
here. -/
def interpAt (s : List ℚ) (h : ℚ) : ℚ :=
  s.getD (⌊h⌋).toNat 0
    + (h - (⌊h⌋ : ℚ)) * (s.getD ((⌊h⌋).toNat + 1) (s.getD (⌊h⌋).toNat 0)
        - s.getD (⌊h⌋).toNat 0)

/-- pandas `Series.quantile(q)` (linear interpolation): sort ascending
and interpolate at position `q·(n−1)`. -/
def quantileLin (xs : List ℚ) (q : ℚ) : ℚ :=
  interpAt (List.insertionSort (· ≤ ·) xs) (q * ((xs.length : ℚ) - 1))

/-- `q1 - 1.5 * iqr` from `detect_revenue_outliers`. -/
def outlierLower (df : List SalesRow) : ℚ :=
  quantileLin (df.map (·.revenue)) (1/4)
    - 3/2 * (quantileLin (df.map (·.revenue)) (3/4)
        - quantileLin (df.map (·.revenue)) (1/4))

/-- `q3 + 1.5 * iqr` from `detect_revenue_outliers`. -/
def outlierUpper (df : List SalesRow) : ℚ :=
  quantileLin (df.map (·.revenue)) (3/4)
    + 3/2 * (quantileLin (df.map (·.revenue)) (3/4)
        - quantileLin (df.map (·.revenue)) (1/4))

/-- `detect_revenue_outliers` from `core/validation.py`: the rows whose
revenue is strictly outside the IQR fence. -/
def detect_revenue_outliers (df : List SalesRow) : List SalesRow :=
  df.filter (fun r =>
    decide (r.revenue < outlierLower df ∨ outlierUpper df < r.revenue))

/-- The interpolation index `⌊q·(n−1)⌋` stays below `n` for `q ≤ 1` on a
nonempty list. -/
theorem quantile_index_lt (n : Nat) (hn : 1 ≤ n) (q : ℚ) (h0 : 0 ≤ q)
    (h1 : q ≤ 1) : (⌊q * ((n : ℚ) - 1)⌋).toNat < n := by
  have hn1 : (0 : ℚ) ≤ (n : ℚ) - 1 := by
    have : (1 : ℚ) ≤ (n : ℚ) := by exact_mod_cast hn
    linarith
  have hle : q * ((n : ℚ) - 1) ≤ (n : ℚ) - 1 := by
    nlinarith
  have hfl : ⌊q * ((n : ℚ) - 1)⌋ ≤ (n : ℤ) - 1 := by
    have h2 : ((⌊q * ((n : ℚ) - 1)⌋ : ℤ) : ℚ) ≤ (n : ℚ) - 1 :=
      le_trans (Int.floor_le _) hle
    exact_mod_cast h2
  omega

/-- `getD` of an all-equal list inside its range. -/
theorem getD_all_eq (s : List ℚ) (v : ℚ) (hall : ∀ x ∈ s, x = v)
    (i : Nat) (hi : i < s.length) (d : ℚ) : s.getD i d = v := by
  rw [List.getD_eq_getElem?_getD, List.getElem?_eq_getElem hi]
  exact hall _ (List.getElem_mem hi)

/-- In-range `getD` ignores the default. -/
theorem getD_irrel (s : List ℚ) (i : Nat) (hi : i < s.length) (d e : ℚ) :
    s.getD i d = s.getD i e := by
  rw [List.getD_eq_getElem?_getD, List.getElem?_eq_getElem hi,
    List.getD_eq_getElem?_getD, List.getElem?_eq_getElem hi]
  rfl

/-- `interpAt` when the successor read is in range. -/
theorem interpAt_eq_of_lt (s : List ℚ) (h : ℚ)
    (hlt : (⌊h⌋).toNat + 1 < s.length) :
    interpAt s h = s.getD (⌊h⌋).toNat 0
      + (h - (⌊h⌋ : ℚ)) * (s.getD ((⌊h⌋).toNat + 1) 0
          - s.getD (⌊h⌋).toNat 0) := by
  unfold interpAt
  rw [getD_irrel s ((⌊h⌋).toNat + 1) hlt (s.getD (⌊h⌋).toNat 0) 0]

/-- `interpAt` when the successor read is out of range: the fallback
default cancels the slope term. -/
theorem interpAt_eq_of_ge (s : List ℚ) (h : ℚ)
    (hge : s.length ≤ (⌊h⌋).toNat + 1) :
    interpAt s h = s.getD (⌊h⌋).toNat 0 := by
  unfold interpAt
  rw [List.getD_eq_getElem?_getD (l := s) (n := (⌊h⌋).toNat + 1),
    List.getElem?_eq_none hge]
  simp

/-- Interpolation inside an all-equal list yields the common value. -/
theorem interpAt_all_eq (s : List ℚ) (v : ℚ) (hall : ∀ x ∈ s, x = v)
    (h : ℚ) (hlo : (⌊h⌋).toNat < s.length) : interpAt s h = v := by
  rcases Nat.lt_or_ge ((⌊h⌋).toNat + 1) s.length with h2 | h2
  · rw [interpAt_eq_of_lt s h h2, getD_all_eq s v hall _ hlo,
      getD_all_eq s v hall _ h2]
    ring
  · rw [interpAt_eq_of_ge s h h2, getD_all_eq s v hall _ hlo]

/-- Every quantile of a nonempty all-equal list is the common value. -/
theorem quantileLin_all_eq (xs : List ℚ) (v : ℚ) (hall : ∀ x ∈ xs, x = v)
    (hne : xs ≠ []) (q : ℚ) (h0 : 0 ≤ q) (h1 : q ≤ 1) :
    quantileLin xs q = v := by
  unfold quantileLin
  have hlen : (List.insertionSort (· ≤ ·) xs).length = xs.length :=
    (List.perm_insertionSort _ _).length_eq
  have hn : 1 ≤ xs.length := List.length_pos.mpr hne
  apply interpAt_all_eq
  · intro x hx
    exact hall x ((List.perm_insertionSort _ _).mem_iff.mp hx)
  · rw [hlen]
    exact quantile_index_lt _ hn q h0 h1

/-- Interpolation positions are monotone on a sorted list: moving the
position right cannot decrease the interpolated value. -/
theorem interpAt_mono (s : List ℚ) (hs : List.Sorted (· ≤ ·) s)
    (a b : ℚ) (h0 : 0 ≤ a) (hab : a ≤ b) (hb : b ≤ (s.length : ℚ) - 1) :
    interpAt s a ≤ interpAt s b := by
  have h0b : (0 : ℚ) ≤ b := le_trans h0 hab
  have hfa0 : 0 ≤ ⌊a⌋ := Int.floor_nonneg.mpr h0
  have hfb0 : 0 ≤ ⌊b⌋ := Int.floor_nonneg.mpr h0b
  have hafl : ⌊a⌋ ≤ ⌊b⌋ := Int.floor_le_floor hab
  have hbfl : ⌊b⌋ ≤ (s.length : ℤ) - 1 := by
    have h2 : ((⌊b⌋ : ℤ) : ℚ) ≤ (s.length : ℚ) - 1 :=
      le_trans (Int.floor_le _) hb
    exact_mod_cast h2
  have hlbn : (⌊b⌋).toNat < s.length := by omega
  have hlan : (⌊a⌋).toNat < s.length := by omega
  have hfraca0 : 0 ≤ a - (⌊a⌋ : ℚ) := by linarith [Int.floor_le a]
  have hfraca1 : a - (⌊a⌋ : ℚ) < 1 := by linarith [Int.lt_floor_add_one a]
  have hfracb0 : 0 ≤ b - (⌊b⌋ : ℚ) := by linarith [Int.floor_le b]
  have hget : ∀ (i j : Nat), i < s.length → j < s.length → i ≤ j →
      s.getD i 0 ≤ s.getD j 0 := by
    intro i j hi hj hij
    rw [List.getD_eq_getElem?_getD, List.getElem?_eq_getElem hi,
      List.getD_eq_getElem?_getD, List.getElem?_eq_getElem hj]
    exact List.Sorted.rel_get_of_le hs (Fin.mk_le_mk.mpr hij)
  rcases Nat.eq_or_lt_of_le (show (⌊a⌋).toNat ≤ (⌊b⌋).toNat by omega)
    with heq | hlt
  · -- same base index: the weight grows along a nonnegative slope
    have hfeq : ⌊a⌋ = ⌊b⌋ := by omega
    have hceq : ((⌊a⌋ : ℤ) : ℚ) = ((⌊b⌋ : ℤ) : ℚ) := by exact_mod_cast hfeq
    rcases Nat.lt_or_ge ((⌊b⌋).toNat + 1) s.length with h2 | h2
    · rw [interpAt_eq_of_lt s a (by omega), interpAt_eq_of_lt s b (by omega),
        heq, hceq]
      have hslope : s.getD (⌊b⌋).toNat 0 ≤ s.getD ((⌊b⌋).toNat + 1) 0 :=
        hget _ _ hlbn h2 (by omega)
      nlinarith [hfraca0, hslope, hab]
    · rw [interpAt_eq_of_ge s a (by omega), interpAt_eq_of_ge s b (by omega),
        heq]
  · -- the base index strictly advances: chain through the sorted reads
    have h2n : (⌊a⌋).toNat + 1 < s.length := by omega
    have hQa : interpAt s a ≤ s.getD ((⌊a⌋).toNat + 1) 0 := by
      rw [interpAt_eq_of_lt s a h2n]
      have hslope : s.getD (⌊a⌋).toNat 0 ≤ s.getD ((⌊a⌋).toNat + 1) 0 :=
        hget _ _ hlan h2n (by omega)
      nlinarith [hfraca0, hfraca1, hslope]
    have hQb : s.getD (⌊b⌋).toNat 0 ≤ interpAt s b := by
      rcases Nat.lt_or_ge ((⌊b⌋).toNat + 1) s.length with h3 | h3
      · rw [interpAt_eq_of_lt s b h3]
        have hslope : s.getD (⌊b⌋).toNat 0 ≤ s.getD ((⌊b⌋).toNat + 1) 0 :=
          hget _ _ hlbn h3 (by omega)
        nlinarith [hfracb0, hslope]
      · rw [interpAt_eq_of_ge s b (by omega)]
    exact le_trans hQa
      (le_trans (hget _ _ h2n hlbn (by omega)) hQb)

/-- Q1 never exceeds Q3 on a nonempty revenue list. -/
theorem quantileLin_q1_le_q3 (xs : List ℚ) (hne : xs ≠ []) :
    quantileLin xs (1/4) ≤ quantileLin xs (3/4) := by
  unfold quantileLin
  have hlen : (List.insertionSort (· ≤ ·) xs).length = xs.length :=
    (List.perm_insertionSort _ _).length_eq
  have hn : 1 ≤ xs.length := List.length_pos.mpr hne
  have hn1 : (1 : ℚ) ≤ (xs.length : ℚ) := by exact_mod_cast hn
  apply interpAt_mono
  · exact List.sorted_insertionSort _ _
  · nlinarith
  · nlinarith
  · rw [hlen]; nlinarith

/-- Claim C6: `detect_revenue_outliers` returns exactly the rows whose
revenue is strictly outside the IQR fence; rows exactly at either fence
bound are never returned; and on a nonempty dataset whose revenues are
all equal it returns the empty row-subset. -/
theorem detect_revenue_outliers_spec (df : List SalesRow) :
    (∀ r, r ∈ detect_revenue_outliers df ↔
        r ∈ df ∧ (r.revenue < outlierLower df ∨ outlierUpper df < r.revenue))
    ∧ (∀ r ∈ df, r.revenue = outlierLower df →
        r ∉ detect_revenue_outliers df)
    ∧ (∀ r ∈ df, r.revenue = outlierUpper df →
        r ∉ detect_revenue_outliers df)
    ∧ (∀ v, df ≠ [] → (∀ r ∈ df, r.revenue = v) →
        detect_revenue_outliers df = []) := by
  have hchar : ∀ r, r ∈ detect_revenue_outliers df ↔
      r ∈ df ∧ (r.revenue < outlierLower df ∨ outlierUpper df < r.revenue) := by
    intro r
    unfold detect_revenue_outliers
    rw [List.mem_filter]
    simp
  have hfence : ∀ r ∈ df, outlierLower df ≤ outlierUpper df := by
    intro r hr
    have hne : df.map (·.revenue) ≠ [] := by
      intro hcon
      rw [List.map_eq_nil_iff] at hcon
      exact absurd (hcon ▸ hr) (List.not_mem_nil r)
    have := quantileLin_q1_le_q3 (df.map (·.revenue)) hne
    unfold outlierLower outlierUpper
    linarith
  refine ⟨hchar, ?_, ?_, ?_⟩
  · intro r hr hrev hmem
    rcases (hchar r).mp hmem with ⟨_, h | h⟩
    · exact absurd (hrev ▸ h) (lt_irrefl _)
    · have := hfence r hr
      rw [hrev] at h
      linarith
  · intro r hr hrev hmem
    rcases (hchar r).mp hmem with ⟨_, h | h⟩
    · have := hfence r hr
      rw [hrev] at h
      linarith
    · exact absurd (hrev ▸ h) (lt_irrefl _)
  · intro v hne hall
    have hmapne : df.map (·.revenue) ≠ [] := by
      intro hcon
      rw [List.map_eq_nil_iff] at hcon
      exact hne hcon
    have hallv : ∀ x ∈ df.map (·.revenue), x = v := by
      intro x hx
      rw [List.mem_map] at hx
      obtain ⟨r, hr, rfl⟩ := hx
      exact hall r hr
    have hq1 : quantileLin (df.map (·.revenue)) (1/4) = v :=
      quantileLin_all_eq _ v hallv hmapne _ (by norm_num) (by norm_num)
    have hq3 : quantileLin (df.map (·.revenue)) (3/4) = v :=
      quantileLin_all_eq _ v hallv hmapne _ (by norm_num) (by norm_num)
    have hlow : outlierLower df = v := by
      unfold outlierLower
      rw [hq1, hq3]
      ring
    have hup : outlierUpper df = v := by
      unfold outlierUpper
      rw [hq1, hq3]
      ring
    rw [List.eq_nil_iff_forall_not_mem]
    intro r hmem
    rcases (hchar r).mp hmem with ⟨hr, h | h⟩
    · rw [hlow, hall r hr] at h
      exact absurd h (lt_irrefl _)
    · rw [hup, hall r hr] at h
      exact absurd h (lt_irrefl _)

/-- A concrete dataset with identical revenues for the C6 witness. -/
def c6df : List SalesRow :=
  [mkRow 1 (2024, 1) "A" "X" 5, mkRow 2 (2024, 1) "B" "X" 5,
   mkRow 3 (2024, 2) "C" "X" 5]

/-- Witness for claim C6: on the concrete all-equal-revenue dataset
`c6df`, no outliers are detected. -/
theorem detect_revenue_outliers_spec_witness :
    detect_revenue_outliers c6df = [] :=
  (detect_revenue_outliers_spec c6df).2.2.2 5 (by simp [c6df])
    (by
      intro r hr
      rcases List.mem_cons.mp hr with rfl | hr
      · norm_num [mkRow]
      rcases List.mem_cons.mp hr with rfl | hr
      · norm_num [mkRow]
      rcases List.mem_cons.mp hr with rfl | hr
      · norm_num [mkRow]
      · simp at hr)

/-! ## core/forecasting.py -/

/-- One row of the monthly series built by `prepare_monthly_series`:
the month-start label plus the three model features. -/
structure SeriesRow where
  order_month : Nat × Nat
  revenue : ℚ
  month : Nat
  year : Nat
  trend : Nat
  deriving DecidableEq, Repr

/-- `prepare_monthly_series` from `core/forecasting.py`: the same
monthly grouping as the KPI engine (revenue only), sorted
chronologically, with `month`/`year` extracted from the key and
`trend = np.arange(len(monthly))` the row index. -/
def prepare_monthly_series (df : List SalesRow) : List SeriesRow :=
  ((List.insertionSort keyLE
      ((df.map (fun r => monthKey r.order_date)).dedup)).enum).map (fun ik =>
    { order_month := ik.2
      revenue := ((df.filter
          (fun r => decide (monthKey r.order_date = ik.2))).map (·.revenue)).sum
      month := ik.2.2
      year := ik.2.1
      trend := ik.1 })

/-- `last_date + pd.DateOffset(months=i)` on a month-start timestamp:
advance the `(year, month)` pair by `i` calendar months. -/
def addMonths (d : Nat × Nat) (i : Nat) : Nat × Nat :=
  (d.1 + (d.2 - 1 + i) / 12, (d.2 - 1 + i) % 12 + 1)

/-- `last_monthly_df["order_month"].max()`: the chronologically largest
month label.  The fold start `(0, 0)` is below every real date, so on a
nonempty series the fold returns the true maximum. -/
def seriesLastDate (s : List SeriesRow) : Nat × Nat :=
  (s.map (·.order_month)).foldl
    (fun a b => if keyLE a b then b else a) (0, 0)

/-- `last_monthly_df["trend"].max()` (trends are naturals, so the fold
start 0 is neutral). -/
def seriesLastTrend (s : List SeriesRow) : Nat :=
  (s.map (·.trend)).foldl max 0

/-- One forecast row produced by `forecast_future`. -/
structure ForecastRow where
  order_month : Nat × Nat
  month : Nat
  year : Nat
  trend : Nat
  forecast_revenue : ℚ
  deriving DecidableEq, Repr

/-- `forecast_future` from `core/forecasting.py`.  The fitted regressor
is opaque; it enters the model as the function
`predict : month → year → trend → ℚ` applied to each synthetic feature
row.  The loop `for i in range(1, periods + 1)` appears as
`j + 1` for `j ∈ range periods`. -/
def forecast_future (predict : Nat → Nat → Nat → ℚ) (s : List SeriesRow)
    (periods : Nat) : List ForecastRow :=
  (List.range periods).map (fun j =>
    { order_month := addMonths (seriesLastDate s) (j + 1)
      month := (addMonths (seriesLastDate s) (j + 1)).2
      year := (addMonths (seriesLastDate s) (j + 1)).1
      trend := seriesLastTrend s + (j + 1)
      forecast_revenue := predict (addMonths (seriesLastDate s) (j + 1)).2
        (addMonths (seriesLastDate s) (j + 1)).1
        (seriesLastTrend s + (j + 1)) })

/-- Claim C5: on a nonempty series with a calendar-valid last month,
`forecast_future` returns exactly `periods` rows; row `j` carries trend
`maxtrend + j + 1` (starting at the maximum trend plus one, increasing
by exactly one per row) and the month label `j + 1` calendar months
after the last observed month; months always land in 1..12; consecutive
forecast months advance by exactly one calendar month; and a December
last month rolls over to January of the next year. -/
theorem forecast_future_spec (predict : Nat → Nat → Nat → ℚ)
    (s : List SeriesRow) (periods : Nat) (hs : s ≠ []) (hp : 1 ≤ periods)
    (hm1 : 1 ≤ (seriesLastDate s).2) (hm2 : (seriesLastDate s).2 ≤ 12) :
    (forecast_future predict s periods).length = periods
    ∧ (∀ j, j < periods →
        (forecast_future predict s periods)[j]? = some
          { order_month := addMonths (seriesLastDate s) (j + 1)
            month := (addMonths (seriesLastDate s) (j + 1)).2
            year := (addMonths (seriesLastDate s) (j + 1)).1
            trend := seriesLastTrend s + (j + 1)
            forecast_revenue := predict (addMonths (seriesLastDate s) (j + 1)).2
              (addMonths (seriesLastDate s) (j + 1)).1
              (seriesLastTrend s + (j + 1)) })
    ∧ (∀ j, 1 ≤ (addMonths (seriesLastDate s) (j + 1)).2
        ∧ (addMonths (seriesLastDate s) (j + 1)).2 ≤ 12)
    ∧ (∀ j, addMonths (seriesLastDate s) (j + 1 + 1)
        = addMonths (addMonths (seriesLastDate s) (j + 1)) 1)
    ∧ ((seriesLastDate s).2 = 12 →
        addMonths (seriesLastDate s) 1 = ((seriesLastDate s).1 + 1, 1)) := by
  refine ⟨?_, ?_, ?_, ?_, ?_⟩
  · simp [forecast_future]
  · intro j hj
    simp [forecast_future, List.getElem?_range hj]
  · intro j
    constructor
    · show 1 ≤ ((seriesLastDate s).2 - 1 + (j + 1)) % 12 + 1
      omega
    · show ((seriesLastDate s).2 - 1 + (j + 1)) % 12 + 1 ≤ 12
      omega
  · intro j
    refine Prod.ext ?_ ?_
    · show (seriesLastDate s).1 + ((seriesLastDate s).2 - 1 + (j + 1 + 1)) / 12
        = ((seriesLastDate s).1 + ((seriesLastDate s).2 - 1 + (j + 1)) / 12)
          + ((((seriesLastDate s).2 - 1 + (j + 1)) % 12 + 1) - 1 + 1) / 12
      omega
    · show ((seriesLastDate s).2 - 1 + (j + 1 + 1)) % 12 + 1
        = ((((seriesLastDate s).2 - 1 + (j + 1)) % 12 + 1) - 1 + 1) % 12 + 1
      omega
  · intro h12
    refine Prod.ext ?_ ?_
    · show (seriesLastDate s).1 + ((seriesLastDate s).2 - 1 + 1) / 12
        = (seriesLastDate s).1 + 1
      omega
    · show ((seriesLastDate s).2 - 1 + 1) % 12 + 1 = 1
      omega

/-- The constant-zero stand-in regressor for the C5 witness. -/
def c5predict : Nat → Nat → Nat → ℚ := fun _ _ _ => 0

/-- A one-row December-2024 series for the C5 witness. -/
def c5series : List SeriesRow :=
  [{ order_month := (2024, 12), revenue := 100, month := 12, year := 2024,
     trend := 0 }]

/-- Witness for claim C5: forecasting two periods past December 2024
yields January 2025 as the first row, with trend 1. -/
theorem forecast_future_spec_witness :
    (forecast_future c5predict c5series 2)[0]? = some
      { order_month := (2025, 1), month := 1, year := 2025, trend := 1,
        forecast_revenue := 0 } := by
  have h := (forecast_future_spec c5predict c5series 2 (by simp [c5series])
    (by norm_num) (by decide) (by decide)).2.1 0 (by norm_num)
  rw [h]
  rfl

/-! ## core/scenario.py : batch_simulation

Python dicts with numeric values are modelled as association lists with
unique keys (Python dicts cannot hold duplicate keys); `d[k] = v`
overwrites the entry in place or appends a new one, and `d.get(k, v0)`
reads with a default. -/

/-- A scenario / result dict: an association list of numeric entries. -/
abbrev Dict : Type := List (String × ℚ)

/-- `d.get(k, v0)`: the first entry for `k`, else the default. -/
def dictGet (d : Dict) (k : String) (v0 : ℚ) : ℚ :=
  match (List.find? (fun p => p.1 == k) d) with
  | some p => p.2
  | none => v0

/-- `d[k] = v`: overwrite the entry for `k` in place, appending when the
key is new. -/
def dictSet : Dict → String → ℚ → Dict
  | [], k, v => [(k, v)]
  | p :: rest, k, v =>
      if p.1 == k then (k, v) :: rest else p :: dictSet rest k v

/-- `outcome.update(s)`: assign every entry of `s` into `outcome`, in
order. -/
def dictUpdate (d s : Dict) : Dict :=
  s.foldl (fun acc kv => dictSet acc kv.1 kv.2) d

/-- The dict literal returned by `simulate_scenario`, as
`batch_simulation` receives it. -/
def outcomeDict (o : ScenarioResult) : Dict :=
  [("simulated_revenue", o.simulated_revenue),
   ("absolute_change", o.absolute_change),
   ("percentage_change", o.percentage_change)]

/-- `batch_simulation` from `core/scenario.py`: run `simulate_scenario`
on each scenario dict's `price_change` / `volume_change` / `discount`
entries (default 0), then `outcome.update(s)` merges the scenario's own
entries into the outcome row.  The whole batch is `none` when the
underlying division by a zero baseline fails. -/
def batch_simulation (baseline_revenue : ℚ) (scenarios : List Dict) :
    Option (List Dict) :=
  scenarios.mapM (fun s =>
    (simulate_scenario baseline_revenue
        (dictGet s "price_change" 0)
        (dictGet s "volume_change" 0)
        (dictGet s "discount" 0)).map
      (fun o => dictUpdate (outcomeDict o) s))

theorem dictGet_dictSet_self (d : Dict) (k : String) (v v0 : ℚ) :
    dictGet (dictSet d k v) k v0 = v := by
  induction d with
  | nil => simp [dictSet, dictGet, List.find?]
  | cons p rest ih =>
    by_cases h : p.1 == k
    · simp [dictSet, h, dictGet, List.find?]
    · simp only [dictSet, h, if_false]
      simp only [dictGet, List.find?, h] at ih ⊢
      exact ih

theorem dictGet_dictSet_ne (d : Dict) (k q : String) (hne : q ≠ k)
    (v v0 : ℚ) : dictGet (dictSet d q v) k v0 = dictGet d k v0 := by
  induction d with
  | nil =>
    have hqk : (q == k) = false := beq_eq_false_iff_ne.mpr hne
    simp [dictSet, dictGet, List.find?, hqk]
  | cons p rest ih =>
    by_cases h : p.1 == q
    · have hpq : p.1 = q := by simpa using h
      have hpk : (p.1 == k) = false :=
        beq_eq_false_iff_ne.mpr (by rw [hpq]; exact hne)
      have hqk : (q == k) = false := beq_eq_false_iff_ne.mpr hne
      simp [dictSet, h, dictGet, List.find?, hpk, hqk]
    · simp only [dictSet, h, if_false]
      by_cases hpk : p.1 == k
      · simp [dictGet, List.find?, hpk]
      · simp only [dictGet, List.find?, hpk] at ih ⊢
        exact ih

/-- Keys not present in the update source keep their value. -/
theorem dictGet_dictUpdate_not_mem (s : List (String × ℚ)) :
    ∀ (d : Dict) (k : String) (v0 : ℚ), (∀ kv ∈ s, kv.1 ≠ k) →
      dictGet (dictUpdate d s) k v0 = dictGet d k v0 := by
  induction s with
  | nil => intro d k v0 _; rfl
  | cons kv rest ih =>
    intro d k v0 hk
    show dictGet (dictUpdate (dictSet d kv.1 kv.2) rest) k v0 = dictGet d k v0
    rw [ih (dictSet d kv.1 kv.2) k v0
      (fun p hp => hk p (List.mem_cons_of_mem kv hp))]
    exact dictGet_dictSet_ne d k kv.1 (hk kv (List.mem_cons_self kv rest)) kv.2 v0

/-- Keys present in the update source (with unique keys) take the
source's value. -/
theorem dictGet_dictUpdate_mem (s : List (String × ℚ)) :
    ∀ (d : Dict) (k : String) (v v0 : ℚ), (s.map (fun p => p.1)).Nodup →
      (k, v) ∈ s → dictGet (dictUpdate d s) k v0 = v := by
  induction s with
  | nil => intro d k v v0 _ hmem; exact absurd hmem (List.not_mem_nil _)
  | cons kv rest ih =>
    intro d k v v0 hnd hmem
    have hnd2 : (rest.map (fun p => p.1)).Nodup := (List.nodup_cons.mp hnd).2
    rcases List.mem_cons.mp hmem with heq | hmem2
    · subst heq
      show dictGet (dictUpdate (dictSet d k v) rest) k v0 = v
      rw [dictGet_dictUpdate_not_mem rest (dictSet d k v) k v0 ?_]
      · exact dictGet_dictSet_self d k v v0
      · intro p hp hpk
        exact (List.nodup_cons.mp hnd).1
          (hpk ▸ List.mem_map_of_mem (fun p => p.1) hp)
    · show dictGet (dictUpdate (dictSet d kv.1 kv.2) rest) k v0 = v
      exact ih (dictSet d kv.1 kv.2) k v v0 hnd2 hmem2

/-- The computed row for one scenario, before the merge. -/
theorem batch_simulation_rows (R : ℚ) (hR : R ≠ 0)
    (scenarios : List Dict) :
    batch_simulation R scenarios = some (scenarios.map (fun s =>
      dictUpdate (outcomeDict
        { simulated_revenue := R * (1 + dictGet s "price_change" 0 / 100)
            * (1 + dictGet s "volume_change" 0 / 100)
            * (1 - dictGet s "discount" 0 / 100)
          absolute_change := R * (1 + dictGet s "price_change" 0 / 100)
            * (1 + dictGet s "volume_change" 0 / 100)
            * (1 - dictGet s "discount" 0 / 100) - R
          percentage_change := (R * (1 + dictGet s "price_change" 0 / 100)
            * (1 + dictGet s "volume_change" 0 / 100)
            * (1 - dictGet s "discount" 0 / 100) - R) / R * 100 }) s)) := by
  unfold batch_simulation
  induction scenarios with
  | nil => rfl
  | cons s rest ih =>
    rw [List.map_cons, List.mapM_cons, ih]
    simp only [simulate_scenario, if_neg hR, Option.map_some]
    rfl

/-- Claim C10: `batch_simulation` merges each scenario dict into its
computed outcome row.  For the `i`-th scenario `s` and output row `row`:
when `s`'s keys avoid the three computed keys, the row still carries all
three computed values — `simulated_revenue` (the product formula),
`absolute_change` (its difference from the baseline) and
`percentage_change` — and, for unique-key scenarios, every scenario
parameter survives into the row; and when `s` itself contains any one
of the three computed keys, the scenario's value overwrites the
computed one for that key. -/
theorem batch_simulation_merge (R : ℚ) (hR : R ≠ 0)
    (scenarios rows : List Dict) (i : Nat) (s row : Dict)
    (hrows : batch_simulation R scenarios = some rows)
    (hs : scenarios[i]? = some s)
    (hrow : rows[i]? = some row) :
    ((∀ kv ∈ s, kv.1 ≠ "simulated_revenue" ∧ kv.1 ≠ "absolute_change"
        ∧ kv.1 ≠ "percentage_change") →
      dictGet row "simulated_revenue" 0
        = R * (1 + dictGet s "price_change" 0 / 100)
            * (1 + dictGet s "volume_change" 0 / 100)
            * (1 - dictGet s "discount" 0 / 100)
      ∧ dictGet row "absolute_change" 0
        = R * (1 + dictGet s "price_change" 0 / 100)
            * (1 + dictGet s "volume_change" 0 / 100)
            * (1 - dictGet s "discount" 0 / 100) - R
      ∧ dictGet row "percentage_change" 0
        = (R * (1 + dictGet s "price_change" 0 / 100)
            * (1 + dictGet s "volume_change" 0 / 100)
            * (1 - dictGet s "discount" 0 / 100) - R) / R * 100
      ∧ ((s.map (fun p => p.1)).Nodup →
          ∀ k v, (k, v) ∈ s → dictGet row k 0 = v))
    ∧ ((s.map (fun p => p.1)).Nodup →
        ∀ v, (("simulated_revenue", v) ∈ s →
            dictGet row "simulated_revenue" 0 = v)
          ∧ (("absolute_change", v) ∈ s →
            dictGet row "absolute_change" 0 = v)
          ∧ (("percentage_change", v) ∈ s →
            dictGet row "percentage_change" 0 = v)) := by
  rw [batch_simulation_rows R hR scenarios] at hrows
  obtain rfl : rows = _ := Option.some_inj.mp hrows.symm
  rw [List.getElem?_map, hs] at hrow
  have hrow2 : row = dictUpdate (outcomeDict
      { simulated_revenue := R * (1 + dictGet s "price_change" 0 / 100)
          * (1 + dictGet s "volume_change" 0 / 100)
          * (1 - dictGet s "discount" 0 / 100)
        absolute_change := R * (1 + dictGet s "price_change" 0 / 100)
          * (1 + dictGet s "volume_change" 0 / 100)
          * (1 - dictGet s "discount" 0 / 100) - R
        percentage_change := (R * (1 + dictGet s "price_change" 0 / 100)
          * (1 + dictGet s "volume_change" 0 / 100)
          * (1 - dictGet s "discount" 0 / 100) - R) / R * 100 }) s :=
    (Option.some_inj.mp hrow).symm
  subst hrow2
  constructor
  · intro hdisj
    refine ⟨?_, ?_, ?_, ?_⟩
    · rw [dictGet_dictUpdate_not_mem s _ _ _
        (fun kv hkv => (hdisj kv hkv).1)]
      rfl
    · rw [dictGet_dictUpdate_not_mem s _ _ _
        (fun kv hkv => (hdisj kv hkv).2.1)]
      rfl
    · rw [dictGet_dictUpdate_not_mem s _ _ _
        (fun kv hkv => (hdisj kv hkv).2.2)]
      rfl
    · intro hnd k v hmem
      exact dictGet_dictUpdate_mem s _ k v 0 hnd hmem
  · intro hnd v
    exact ⟨fun hmem => dictGet_dictUpdate_mem s _ "simulated_revenue" v 0 hnd hmem,
      fun hmem => dictGet_dictUpdate_mem s _ "absolute_change" v 0 hnd hmem,
      fun hmem => dictGet_dictUpdate_mem s _ "percentage_change" v 0 hnd hmem⟩

/-- A concrete one-scenario batch for the C10 witness. -/
def c10s : Dict := [("price_change", 10)]

/-- Witness for claim C10: with baseline 100 and the single scenario
`{price_change: 10}`, the output row keeps all three computed values
(simulated revenue 110, absolute change 10, percentage change 10) and
carries the scenario parameter. -/
theorem batch_simulation_merge_witness :
    dictGet ((batch_simulation 100 [c10s]).getD [] |>.getD 0 [])
        "simulated_revenue" 0 = 110
    ∧ dictGet ((batch_simulation 100 [c10s]).getD [] |>.getD 0 [])
        "absolute_change" 0 = 10
    ∧ dictGet ((batch_simulation 100 [c10s]).getD [] |>.getD 0 [])
        "percentage_change" 0 = 10
    ∧ dictGet ((batch_simulation 100 [c10s]).getD [] |>.getD 0 [])
        "price_change" 0 = 10 := by
  have hrowseq := batch_simulation_rows 100 (by norm_num) [c10s]
  have hs : ([c10s] : List Dict)[0]? = some c10s := rfl
  have hrows : batch_simulation 100 [c10s]
      = some ((batch_simulation 100 [c10s]).getD []) := by
    rw [hrowseq]
    rfl
  have hrow : ((batch_simulation 100 [c10s]).getD [])[0]?
      = some (((batch_simulation 100 [c10s]).getD []).getD 0 []) := by
    rw [hrowseq]
    rfl
  have h := batch_simulation_merge 100 (by norm_num) [c10s]
    ((batch_simulation 100 [c10s]).getD []) 0 c10s
    (((batch_simulation 100 [c10s]).getD []).getD 0 []) hrows hs hrow
  have hd := h.1 (by
    intro kv hkv
    rcases List.mem_cons.mp hkv with rfl | hkv
    · refine ⟨by decide, by decide, by decide⟩
    · simp at hkv)
  have h1 : ("price_change" == "volume_change") = false := by decide
  have h2 : ("price_change" == "discount") = false := by decide
  have h3 : ("price_change" == "price_change") = true := by decide
  refine ⟨?_, ?_, ?_, ?_⟩
  · rw [hd.1]
    norm_num [c10s, dictGet, List.find?, h1, h2, h3]
  · rw [hd.2.1]
    norm_num [c10s, dictGet, List.find?, h1, h2, h3]
  · rw [hd.2.2.1]
    norm_num [c10s, dictGet, List.find?, h1, h2, h3]
  · exact hd.2.2.2 (by decide) "price_change" 10 (by decide)

/-! ## Frame behaviour of the components (heap model for C9)

pandas dataframes are mutable objects.  To state that no component
mutates its source dataframe, tables live on a heap of cells:
`df.copy()` allocates a fresh cell, an in-place column assignment
`df[c] = ...` overwrites exactly one cell, and groupby/filter-style
operations only read cells and build new values.  A cell holds rows of
the table's row type extended with `Option` fields for the columns the
code may assign (an unassigned column is `none`).  Each component is
re-traced from its source against this heap; a component that skipped
the `copy()` before assigning would write to the caller's cell and the
frame theorem below would fail. -/

/-- A heap of pandas tables with row type `ρ`. -/
structure PHeap (ρ : Type) where
  cells : List (List ρ)

/-- Dereference table object `r`. -/
def PHeap.read {ρ : Type} (h : PHeap ρ) (r : Nat) : List ρ :=
  (h.cells)[r]?.getD []

/-- `t.copy()`-style allocation: a fresh cell holding `t`, together with
its address. -/
def PHeap.alloc {ρ : Type} (h : PHeap ρ) (t : List ρ) : PHeap ρ × Nat :=
  (⟨h.cells ++ [t]⟩, h.cells.length)

/-- In-place column assignment: overwrite the table at address `w`. -/
def PHeap.write {ρ : Type} (h : PHeap ρ) (w : Nat) (t : List ρ) : PHeap ρ :=
  ⟨h.cells.set w t⟩

theorem PHeap.read_alloc_of_lt {ρ : Type} (h : PHeap ρ) (t : List ρ)
    (r : Nat) (hr : r < h.cells.length) :
    ((h.alloc t).1).read r = h.read r := by
  unfold PHeap.alloc PHeap.read
  rw [List.getElem?_append, if_pos hr]

theorem PHeap.read_write_ne {ρ : Type} (h : PHeap ρ) (w r : Nat)
    (t : List ρ) (hne : w ≠ r) : (h.write w t).read r = h.read r := by
  unfold PHeap.write PHeap.read
  rw [List.getElem?_set_ne hne]

/-- A sales row extended with the `order_month` column that
`monthly_kpis` and `prepare_monthly_series` assign on their copies. -/
structure SalesRowM where
  base : SalesRow
  order_month : Option (Nat × Nat)
  deriving DecidableEq, Repr

/-- A monthly-KPI row extended with the six columns
`revenue_decomposition` assigns on its copy. -/
structure MonthlyRowM where
  base : MonthlyRow
  prev_revenue : Option ℚ
  prev_orders : Option ℚ
  prev_aov : Option ℚ
  revenue_change : Option ℚ
  orders_effect : Option ℚ
  aov_effect : Option ℚ
  deriving DecidableEq, Repr

/-- `monthly_kpis` over the heap: copy the source, assign
`order_month = to_period(order_date)` on the copy (the assigned value
equals `monthKey` of `order_date`, which is also what the grouping key
is), and build the aggregate as a fresh value from the copy. -/
def monthly_kpisH (h : PHeap SalesRowM) (r : Nat) :
    PHeap SalesRowM × List MonthlyRow :=
  let a := h.alloc (h.read r)
  let h2 := a.1.write a.2 ((a.1.read a.2).map (fun x =>
    { x with order_month := some (monthKey x.base.order_date) }))
  (h2, monthly_kpis ((h2.read a.2).map (·.base)))

/-- `prepare_monthly_series` over the heap: same copy-then-assign shape
as `monthly_kpisH`, with the series built from the copy. -/
def prepare_monthly_seriesH (h : PHeap SalesRowM) (r : Nat) :
    PHeap SalesRowM × List SeriesRow :=
  let a := h.alloc (h.read r)
  let h2 := a.1.write a.2 ((a.1.read a.2).map (fun x =>
    { x with order_month := some (monthKey x.base.order_date) }))
  (h2, prepare_monthly_series ((h2.read a.2).map (·.base)))

/-- `revenue_decomposition` over the heap: copy the monthly table, then
six in-place column assignments on the copy (`shift(1)` columns are the
predecessor values, `none` for the first row), then `dropna()` plus the
final column selection build a fresh table. -/
def revenue_decompositionH (h : PHeap MonthlyRowM) (r : Nat) :
    PHeap MonthlyRowM × List DecompRow :=
  let a := h.alloc (h.read r)
  let h2 := a.1.write a.2 ((a.1.read a.2).zipWith
      (fun x v => { x with prev_revenue := v })
      (none :: (a.1.read a.2).map (fun y => some y.base.revenue)))
  let h3 := h2.write a.2 ((h2.read a.2).zipWith
      (fun x v => { x with prev_orders := v })
      (none :: (h2.read a.2).map (fun y => some y.base.orders)))
  let h4 := h3.write a.2 ((h3.read a.2).zipWith
      (fun x v => { x with prev_aov := v })
      (none :: (h3.read a.2).map (fun y => some y.base.aov)))
  let h5 := h4.write a.2 ((h4.read a.2).map (fun x =>
      { x with revenue_change :=
          x.prev_revenue.map (fun p => x.base.revenue - p) }))
  let h6 := h5.write a.2 ((h5.read a.2).map (fun x =>
      { x with orders_effect := x.prev_orders.bind (fun po =>
          x.prev_aov.map (fun pa => (x.base.orders - po) * pa)) }))
  let h7 := h6.write a.2 ((h6.read a.2).map (fun x =>
      { x with aov_effect :=
          x.prev_aov.map (fun pa => (x.base.aov - pa) * x.base.orders) }))
  (h7, (h7.read a.2).filterMap (fun x =>
    match x.revenue_change, x.orders_effect, x.aov_effect with
    | some rc, some oe, some ae =>
        some { order_month := x.base.order_month, revenue := x.base.revenue,
               revenue_change := rc, orders_effect := oe, aov_effect := ae }
    | _, _, _ => none))

/-- `pareto_products` over the heap: pure reads, the grouped table is a
fresh value. -/
def pareto_productsH (h : PHeap SalesRowM) (r : Nat) (threshold : ℚ) :
    PHeap SalesRowM × List ParetoRow :=
  (h, pareto_products ((h.read r).map (·.base)) threshold)

/-- `pareto_categories` over the heap. -/
def pareto_categoriesH (h : PHeap SalesRowM) (r : Nat) (threshold : ℚ) :
    PHeap SalesRowM × List ParetoRow :=
  (h, pareto_categories ((h.read r).map (·.base)) threshold)

/-- `validate_business_rules` over the heap: three filters, each a fresh
row-subset. -/
def validate_business_rulesH (h : PHeap SalesRowM) (r : Nat) :
    PHeap SalesRowM × BusinessRuleIssues :=
  (h, validate_business_rules ((h.read r).map (·.base)))

/-- `detect_revenue_outliers` over the heap. -/
def detect_revenue_outliersH (h : PHeap SalesRowM) (r : Nat) :
    PHeap SalesRowM × List SalesRow :=
  (h, detect_revenue_outliers ((h.read r).map (·.base)))

/-- `baseline_metrics` over the heap. -/
def baseline_metricsH (h : PHeap SalesRowM) (r : Nat) :
    PHeap SalesRowM × BaselineMetrics :=
  (h, baseline_metrics ((h.read r).map (·.base)))

/-- Claim C9: no component mutates the source dataset.  After running
any of the component operations against the object heap, the caller's
table cell — rows and columns — is unchanged: the mutating components
assign columns only on their `copy()`, and the rest never write at
all. -/
theorem components_do_not_mutate_source (hs : PHeap SalesRowM)
    (hm : PHeap MonthlyRowM) (r q : Nat) (threshold : ℚ)
    (hr : r < hs.cells.length) (hq : q < hm.cells.length) :
    (monthly_kpisH hs r).1.read r = hs.read r
    ∧ (prepare_monthly_seriesH hs r).1.read r = hs.read r
    ∧ (revenue_decompositionH hm q).1.read q = hm.read q
    ∧ (pareto_productsH hs r threshold).1.read r = hs.read r
    ∧ (pareto_categoriesH hs r threshold).1.read r = hs.read r
    ∧ (validate_business_rulesH hs r).1.read r = hs.read r
    ∧ (detect_revenue_outliersH hs r).1.read r = hs.read r
    ∧ (baseline_metricsH hs r).1.read r = hs.read r := by
  have hner : (hs.alloc (hs.read r)).2 ≠ r := Ne.symm (Nat.ne_of_lt hr)
  have hneq : (hm.alloc (hm.read q)).2 ≠ q := Ne.symm (Nat.ne_of_lt hq)
  refine ⟨?_, ?_, ?_, rfl, rfl, rfl, rfl, rfl⟩
  · show (((hs.alloc (hs.read r)).1.write (hs.alloc (hs.read r)).2 _).read r)
      = hs.read r
    rw [PHeap.read_write_ne _ _ _ _ hner, PHeap.read_alloc_of_lt _ _ _ hr]
  · show (((hs.alloc (hs.read r)).1.write (hs.alloc (hs.read r)).2 _).read r)
      = hs.read r
    rw [PHeap.read_write_ne _ _ _ _ hner, PHeap.read_alloc_of_lt _ _ _ hr]
  · show ((((((((hm.alloc (hm.read q)).1.write (hm.alloc (hm.read q)).2
        _).write (hm.alloc (hm.read q)).2 _).write (hm.alloc (hm.read q)).2
        _).write (hm.alloc (hm.read q)).2 _).write (hm.alloc (hm.read q)).2
        _).write (hm.alloc (hm.read q)).2 _).read q) = hm.read q
    rw [PHeap.read_write_ne _ _ _ _ hneq, PHeap.read_write_ne _ _ _ _ hneq,
      PHeap.read_write_ne _ _ _ _ hneq, PHeap.read_write_ne _ _ _ _ hneq,
      PHeap.read_write_ne _ _ _ _ hneq, PHeap.read_write_ne _ _ _ _ hneq,
      PHeap.read_alloc_of_lt _ _ _ hq]

/-- A one-cell heap of sales tables for the C9 witness. -/
def c9hs : PHeap SalesRowM := ⟨[[]]⟩

/-- A one-cell heap of monthly tables for the C9 witness. -/
def c9hm : PHeap MonthlyRowM := ⟨[[]]⟩

/-- Witness for claim C9 on concrete one-cell heaps. -/
theorem components_do_not_mutate_source_witness :
    (monthly_kpisH c9hs 0).1.read 0 = c9hs.read 0
    ∧ (prepare_monthly_seriesH c9hs 0).1.read 0 = c9hs.read 0
    ∧ (revenue_decompositionH c9hm 0).1.read 0 = c9hm.read 0
    ∧ (pareto_productsH c9hs 0 (8/10)).1.read 0 = c9hs.read 0
    ∧ (pareto_categoriesH c9hs 0 (8/10)).1.read 0 = c9hs.read 0
    ∧ (validate_business_rulesH c9hs 0).1.read 0 = c9hs.read 0
    ∧ (detect_revenue_outliersH c9hs 0).1.read 0 = c9hs.read 0
    ∧ (baseline_metricsH c9hs 0).1.read 0 = c9hs.read 0 :=
  components_do_not_mutate_source c9hs c9hm 0 0 (8/10)
    (by decide) (by decide)

/-! ## Theorems for C2 (scenario identity), C7 (schema), C8 (interpretation) -/

/-- Claim C2 as stated is false at baseline revenue `R = 0`: the code
divides `delta` by `baseline_revenue`, which at `R = 0` is `0/0`
(ZeroDivisionError / NaN), so the identity dict is not returned. -/
theorem simulate_scenario_zero_baseline_fails :
    simulate_scenario 0 0 0 0 ≠
      some { simulated_revenue := 0, absolute_change := 0,
             percentage_change := 0 } := by
  simp [simulate_scenario]

/-- Claim C2 (amended): for every nonzero baseline revenue `R`,
`simulate_scenario R 0 0 0` is the identity scenario: simulated revenue
`R`, absolute change `0`, percentage change `0`. -/
theorem simulate_scenario_identity (R : ℚ) (hR : R ≠ 0) :
    simulate_scenario R 0 0 0 =
      some { simulated_revenue := R, absolute_change := 0,
             percentage_change := 0 } := by
  simp only [simulate_scenario, if_neg hR]
  norm_num

/-- Witness for the amended claim C2 at the concrete baseline `R = 5`. -/
theorem simulate_scenario_identity_witness :
    simulate_scenario 5 0 0 0 =
      some { simulated_revenue := 5, absolute_change := 0,
             percentage_change := 0 } :=
  simulate_scenario_identity 5 (by norm_num)

/-- Claim C7: `validate_schema` returns precisely the set-difference
between the eight required column names and the dataset's columns
(membership characterisation, order unspecified), and on a dataset
missing only `"revenue"` it returns exactly `["revenue"]`. -/
theorem validate_schema_spec :
    (∀ (columns : List String) (c : String),
      c ∈ validate_schema columns ↔ c ∈ REQUIRED_COLUMNS ∧ c ∉ columns)
    ∧ validate_schema ["order_id", "order_date", "product_name", "category",
        "region", "quantity", "unit_price"] = ["revenue"] := by
  constructor
  · intro columns c
    simp [validate_schema, List.mem_filter]
  · decide

/-- Witness for claim C7: dropping exactly the `"revenue"` column from
the required set leaves exactly `["revenue"]` missing. -/
theorem validate_schema_spec_witness :
    validate_schema ["order_id", "order_date", "product_name", "category",
      "region", "quantity", "unit_price"] = ["revenue"] :=
  validate_schema_spec.2

/-- Claim C8: `interpret_revenue_change` is a pure function of the signs
of its two inputs (inputs with the same sign classification give the
same text), and a zero effect falls into the "decrease/lower" phrase:
at `(0, 0)` both non-positive phrases are produced, concatenated with
`" & "`. -/
theorem interpret_revenue_change_sign (oe₁ ae₁ oe₂ ae₂ : ℚ)
    (ho : 0 < oe₁ ↔ 0 < oe₂) (ha : 0 < ae₁ ↔ 0 < ae₂) :
    interpret_revenue_change oe₁ ae₁ = interpret_revenue_change oe₂ ae₂
    ∧ interpret_revenue_change 0 0 =
        "Decrease driven by lower order volume & Lower average order value impacted revenue" := by
  refine ⟨?_, by decide⟩
  unfold interpret_revenue_change
  by_cases h₁ : 0 < oe₁ <;> by_cases h₂ : 0 < ae₁ <;>
    simp_all [ho.symm, ha.symm]

/-- Witness for claim C8 at concrete inputs: `(2, -1)` and `(7, 0)` have
the same sign classification (positive orders effect, non-positive aov
effect), so they produce the same text; and the zero row produces the
two "decrease/lower" phrases. -/
theorem interpret_revenue_change_sign_witness :
    interpret_revenue_change 2 (-1) = interpret_revenue_change 7 0
    ∧ interpret_revenue_change 0 0 =
        "Decrease driven by lower order volume & Lower average order value impacted revenue" :=
  interpret_revenue_change_sign 2 (-1) 7 0 (by norm_num) (by norm_num)

end SalesDashboard
